import Mathlib

/-!
Shallow embedding of `src/maps.py` (procedural terrain pipeline):
elevation generation (`generate_terrain`), band remapping (`adjust_terrain`),
forest overlay (`add_forests` / `propagate_forest`) and color lookup
(`get_color` / `terrain_to_color_map`).

Grids are lists of rows of integer elevations (the numpy array of the source,
whose cells after quantization are integer multiples of 50).  Rational numbers
model the real arithmetic of the source; the random module is modelled by an
oracle stream of rationals in `[0,1)` together with a cursor that advances at
each call, mirroring the source's call order statement by statement.
-/

set_option autoImplicit false

namespace Maps

/-- An elevation (or band) grid: a list of rows of integer cell values. -/
abbrev Grid := List (List ℤ)

/-- Map a per-cell function over every cell of a grid (a whole-array numpy
masked assignment is exactly such a map). -/
def gridMap (f : ℤ → ℤ) (g : Grid) : Grid :=
  g.map (List.map f)

/-- Cell lookup `g[i][j]`, `none` when out of range. -/
def getCell (g : Grid) (i j : ℕ) : Option ℤ :=
  g[i]?.bind (fun row => row[j]?)

/-- The `(elevation, current_value)` pairs produced by the source loop
`for elevation in range(450, 1501, 50)` carrying the mutable
`current_value` (initially 4) and `increment` (initially 4, growing by 5
each iteration). -/
def highBandsAux : List ℤ → ℤ → ℤ → List (ℤ × ℤ)
  | [], _, _ => []
  | e :: rest, cv, inc => (e, cv) :: highBandsAux rest (cv + inc) (inc + 5)

/-- The elevations visited by the high-band loop: 450, 500, ..., 1500. -/
def highElevs : List ℤ :=
  (List.range 22).map (fun k => 450 + 50 * (k : ℤ))

/-- The association list of high elevations to their band identifiers, as
computed by the source loop with `current_value = 4`, `increment = 4`. -/
def highBands : List (ℤ × ℤ) :=
  highBandsAux highElevs 4 4

/-- Embedding of `adjust_terrain`: the source copies the grid and applies the
masked whole-grid rewrites in order (below 0 to band 0, `[50,200]` to 1,
`[250,300]` to 2, `[350,400]` to 3, then one equality rewrite per high
elevation). -/
def adjust_terrain (g : Grid) : Grid :=
  let g1 := gridMap (fun v => if v < 0 then 0 else v) g
  let g2 := gridMap (fun v => if 50 ≤ v ∧ v ≤ 200 then 1 else v) g1
  let g3 := gridMap (fun v => if 250 ≤ v ∧ v ≤ 300 then 2 else v) g2
  let g4 := gridMap (fun v => if 350 ≤ v ∧ v ≤ 400 then 3 else v) g3
  highBands.foldl (fun g p => gridMap (fun v => if v = p.1 then p.2 else v) g) g4

/-- The same pipeline of rewrites of `adjust_terrain`, applied to one cell
value (each masked assignment acts on each cell independently). -/
def adjustCell (v : ℤ) : ℤ :=
  let v1 := if v < 0 then 0 else v
  let v2 := if 50 ≤ v1 ∧ v1 ≤ 200 then 1 else v1
  let v3 := if 250 ≤ v2 ∧ v2 ≤ 300 then 2 else v2
  let v4 := if 350 ≤ v3 ∧ v3 ≤ 400 then 3 else v3
  highBands.foldl (fun cur p => if cur = p.1 then p.2 else cur) v4

/-- Modelled from the spec (refinement side of claim C10): the band of a cell
as a pure function of its original elevation, matching each threshold window
against the raw elevation directly; an elevation in no window retains its
value.  To be compared with the sequential rewrite pipeline `adjust_terrain`
of the source. -/
def specBand (v : ℤ) : ℤ :=
  if v < 0 then 0
  else if 50 ≤ v ∧ v ≤ 200 then 1
  else if 250 ≤ v ∧ v ≤ 300 then 2
  else if 350 ≤ v ∧ v ≤ 400 then 3
  else
    match highBands.find? (fun p => p.1 == v) with
    | some p => p.2
    | none => v

/-- The multiples of 50 in `[-500, 1500]`: the possible cell values of a
generated elevation grid. -/
def elevValues : List ℤ :=
  (List.range 41).map (fun k => -500 + 50 * (k : ℤ))

/-- Python's built-in `round` on an exact value: round half to even
(`Rat.floor` is the executable floor of a rational). -/
def pyRound (x : ℚ) : ℤ :=
  if x - x.floor < 1/2 then x.floor
  else if 1/2 < x - x.floor then x.floor + 1
  else if x.floor % 2 = 0 then x.floor else x.floor + 1

/-- Embedding of `np.interp(x, [0, 1], [-500, 1500])`: linear interpolation
with clamping outside the sample range. -/
def interp01 (x : ℚ) : ℚ :=
  if x ≤ 0 then -500
  else if 1 ≤ x then 1500
  else -500 + x * 2000

/-- The quantization step of `generate_terrain`:
`elevation = round(elevation / 50) * 50`. -/
def quantize (e : ℚ) : ℤ :=
  pyRound (e / 50) * 50

/-- One cell of `generate_terrain`: noise at the offset and scaled
coordinates, normalized from `[-1,1]` to `[0,1]`, interpolated to
`[-500,1500]` and quantized.  The simplex noise collaborator `sn` and the
random offsets `sx, sy` are parameters. -/
def genCell (sn : ℚ → ℚ → ℚ) (sx sy scl : ℚ) (i j : ℕ) : ℤ :=
  let noise_value := sn (((i : ℚ) + sx) / (scl * (4/5))) (((j : ℚ) + sy) / (scl * (4/5)))
  let normalized_value := (noise_value + 1) / 2
  quantize (interp01 normalized_value)

/-- Embedding of `generate_terrain width height scale` with the noise
collaborator and the per-run random offsets as parameters. -/
def generate_terrain (sn : ℚ → ℚ → ℚ) (sx sy : ℚ) (w h : ℕ) (scl : ℚ) : Grid :=
  (List.range w).map (fun i => (List.range h).map (fun j => genCell sn sx sy scl i j))

/-- Bounds check of `add_forests`: `0 <= x < width and 0 <= y < height`. -/
abbrev in_bounds (w h : ℕ) (x y : ℤ) : Prop :=
  0 ≤ x ∧ x < (w : ℤ) ∧ 0 ≤ y ∧ y < (h : ℤ)

/-- The 4-connected neighbors `[(x-1,y), (x+1,y), (x,y-1), (x,y+1)]`. -/
def adjacent_cells (x y : ℤ) : List (ℤ × ℤ) :=
  [(x - 1, y), (x + 1, y), (x, y - 1), (x, y + 1)]

/-- The inner `for (nx, ny) in adjacent_cells(x, y)` loop of
`propagate_forest`: each in-bounds, unforested neighbor whose band is 1 or 2
is accepted when the next random draw is below `prob` (1.0 on band 1, 0.1 on
band 2); an accepted neighbor is marked and enqueued.  The source's
`prob *= 0.9` after the acceptance has no observable effect (`prob` is
reassigned before its next read), so the state carries no decayed
probability.  State: remaining neighbors, queue, forest cells, stream
cursor. -/
def processNeighbors (terrain : ℤ → ℤ → ℤ) (w h : ℕ) (stream : ℕ → ℚ) :
    List (ℤ × ℤ) → List (ℤ × ℤ) → List (ℤ × ℤ) → ℕ →
      List (ℤ × ℤ) × List (ℤ × ℤ) × ℕ
  | [], q, f, pos => (q, f, pos)
  | c :: rest, q, f, pos =>
    if in_bounds w h c.1 c.2 ∧ c ∉ f then
      if terrain c.1 c.2 = 1 ∨ terrain c.1 c.2 = 2 then
        if stream pos < (if terrain c.1 c.2 = 1 then (1 : ℚ) else 1/10) then
          processNeighbors terrain w h stream rest (q ++ [c]) (c :: f) (pos + 1)
        else
          processNeighbors terrain w h stream rest q f (pos + 1)
      else
        processNeighbors terrain w h stream rest q f pos
    else
      processNeighbors terrain w h stream rest q f pos

/-- The `while queue` loop of `propagate_forest`: pop the head cell, process
its neighbors, repeat.  The fuel argument makes the recursion structural; any
fuel at least the number of grid cells plus one is enough, and every theorem
below quantifies over the fuel. -/
def propagateQueue (terrain : ℤ → ℤ → ℤ) (w h : ℕ) (stream : ℕ → ℚ) :
    ℕ → List (ℤ × ℤ) → List (ℤ × ℤ) → ℕ → List (ℤ × ℤ) × ℕ
  | 0, _, f, pos => (f, pos)
  | _ + 1, [], f, pos => (f, pos)
  | fuel + 1, c :: rest, f, pos =>
    propagateQueue terrain w h stream fuel
      (processNeighbors terrain w h stream (adjacent_cells c.1 c.2) rest f pos).1
      (processNeighbors terrain w h stream (adjacent_cells c.1 c.2) rest f pos).2.1
      (processNeighbors terrain w h stream (adjacent_cells c.1 c.2) rest f pos).2.2

/-- Embedding of `propagate_forest(start_x, start_y)`: mark the seed, then
run the queue.  The forest map is the list of marked cells. -/
def propagate_forest (terrain : ℤ → ℤ → ℤ) (w h : ℕ) (stream : ℕ → ℚ)
    (pfuel : ℕ) (start : ℤ × ℤ) (f : List (ℤ × ℤ)) (pos : ℕ) :
    List (ℤ × ℤ) × ℕ :=
  propagateQueue terrain w h stream pfuel [start] (start :: f) pos

/-- The `while current_forest_count < desired_forest_count` retry loop of
`add_forests`, with fuel bounding how many iterations the embedding may
unfold: `none` means the loop was still running when the fuel ran out.  The
two `random.randint(0, n-1)` draws are modelled as `⌊r * n⌋` from the next
two stream draws in `[0,1)`. -/
def add_forestsAux (terrain : ℤ → ℤ → ℤ) (w h : ℕ) (desired : ℕ) (spawnP : ℚ)
    (stream : ℕ → ℚ) (pfuel : ℕ) :
    ℕ → ℕ → List (ℤ × ℤ) → ℕ → Option (List (ℤ × ℤ))
  | 0, count, f, _ => if desired ≤ count then some f else none
  | fuel + 1, count, f, pos =>
    if desired ≤ count then some f
    else
      if (terrain (stream pos * w).floor (stream (pos + 1) * h).floor = 1 ∨
            terrain (stream pos * w).floor (stream (pos + 1) * h).floor = 2) ∧
          ((stream pos * w).floor, (stream (pos + 1) * h).floor) ∉ f then
        if stream (pos + 2) < spawnP then
          add_forestsAux terrain w h desired spawnP stream pfuel fuel (count + 1)
            (propagate_forest terrain w h stream pfuel
              ((stream pos * w).floor, (stream (pos + 1) * h).floor) f (pos + 3)).1
            (propagate_forest terrain w h stream pfuel
              ((stream pos * w).floor, (stream (pos + 1) * h).floor) f (pos + 3)).2
        else
          add_forestsAux terrain w h desired spawnP stream pfuel fuel count f (pos + 3)
      else
        add_forestsAux terrain w h desired spawnP stream pfuel fuel count f (pos + 2)

/-- Embedding of `add_forests(terrain, desired_forest_count,
spawn_probability)`: run the retry loop from an empty forest map. -/
def add_forests (terrain : ℤ → ℤ → ℤ) (w h : ℕ) (desired : ℕ) (spawnP : ℚ)
    (stream : ℕ → ℚ) (pfuel afuel : ℕ) : Option (List (ℤ × ℤ)) :=
  add_forestsAux terrain w h desired spawnP stream pfuel afuel 0 [] 0

/-- Embedding of `get_color(elevation)`: band 0 is water blue, `[1,100]` a
green-to-brown gradient, `(100,350]` light-to-dirt brown, `(350,600]` brown
to stone gray, everything else snow white. -/
def get_color (elevation : ℤ) : ℚ × ℚ × ℚ :=
  if elevation = 0 then (0, 0, 1)
  else if 1 ≤ elevation ∧ elevation ≤ 100 then
    let normalized_elevation : ℚ := ((elevation : ℚ) - 1) / 99
    (0.4 + 0.6 * normalized_elevation, 1 - 0.4 * normalized_elevation,
      0.2 + 0.3 * normalized_elevation)
  else if 100 < elevation ∧ elevation ≤ 350 then
    let normalized_elevation : ℚ := ((elevation : ℚ) - 100) / 250
    (0.9 - 0.4 * normalized_elevation, 0.7 - 0.3 * normalized_elevation,
      0.5 - 0.3 * normalized_elevation)
  else if 350 < elevation ∧ elevation ≤ 600 then
    let normalized_elevation : ℚ := ((elevation : ℚ) - 350) / 250
    (0.5 + 0.3 * normalized_elevation, 0.4 + 0.2 * normalized_elevation,
      0.3 + 0.3 * normalized_elevation)
  else (1, 1, 1)

/-- Embedding of `terrain_to_color_map(terrain, forest_map)`.  The random
oracle `stream` and its cursor `pos` are threaded through like in the other
stages; no statement of the source loop calls the random module, so the
cursor is returned unchanged and no stream value is read. -/
def terrain_to_color_map (t : Grid) (fm : List (ℤ × ℤ)) (stream : ℕ → ℚ)
    (pos : ℕ) : List (List (ℚ × ℚ × ℚ)) × ℕ :=
  (t.enum.map (fun r => r.2.enum.map (fun cellv =>
      if ((r.1 : ℤ), (cellv.1 : ℤ)) ∈ fm then ((1 : ℚ), (0 : ℚ), (0 : ℚ))
      else get_color cellv.2)), pos)

theorem mem_elevValues {v : ℤ} (hd : (50 : ℤ) ∣ v) (hl : -500 ≤ v) (hu : v ≤ 1500) :
    v ∈ elevValues := by
  obtain ⟨k, rfl⟩ := hd
  have hk1 : -10 ≤ k := by omega
  have hk2 : k ≤ 30 := by omega
  interval_cases k <;> decide

theorem adjustCell_eq_specBand_of_mem :
    ∀ v ∈ elevValues, adjustCell v = specBand v := by decide

theorem ratFloor_eq_intFloor (x : ℚ) : (x.floor : ℤ) = ⌊x⌋ := by
  rw [Rat.floor_def', Rat.floor_def]

theorem gridMap_gridMap (f h : ℤ → ℤ) (g : Grid) :
    gridMap f (gridMap h g) = gridMap (fun v => f (h v)) g := by
  simp [gridMap, List.map_map, Function.comp]

theorem foldl_gridMap (L : List (ℤ × ℤ)) (g : Grid) :
    L.foldl (fun gr p => gridMap (fun v => if v = p.1 then p.2 else v) gr) g
      = gridMap (fun v => L.foldl (fun cur p => if cur = p.1 then p.2 else cur) v) g := by
  induction L generalizing g with
  | nil => simp [gridMap]
  | cons p rest ih =>
      rw [List.foldl_cons, ih, gridMap_gridMap]
      simp only [List.foldl_cons]

theorem adjust_terrain_eq_gridMap (g : Grid) :
    adjust_terrain g = gridMap adjustCell g := by
  unfold adjust_terrain
  rw [foldl_gridMap, gridMap_gridMap, gridMap_gridMap, gridMap_gridMap, gridMap_gridMap]
  rfl

theorem getCell_gridMap (f : ℤ → ℤ) (g : Grid) (i j : ℕ) :
    getCell (gridMap f g) i j = Option.map f (getCell g i j) := by
  simp only [getCell, gridMap, List.getElem?_map]
  cases g[i]? with
  | none => rfl
  | some row => simp [List.getElem?_map]

theorem mem_of_getCell {g : Grid} {i j : ℕ} {v : ℤ} (h : getCell g i j = some v) :
    ∃ row ∈ g, v ∈ row := by
  simp only [getCell, Option.bind_eq_some] at h
  obtain ⟨row, hrow, hv⟩ := h
  exact ⟨row, List.getElem?_mem hrow, List.getElem?_mem hv⟩

theorem adjustCell_facts : ∀ v ∈ elevValues,
    (v < 0 → adjustCell v = 0) ∧
    (50 ≤ v ∧ v ≤ 200 → adjustCell v = 1) ∧
    (250 ≤ v ∧ v ≤ 300 → adjustCell v = 2) ∧
    (350 ≤ v ∧ v ≤ 400 → adjustCell v = 3) ∧
    (v = 0 → adjustCell v = v) := by decide

/-- Claim C1: on grids whose cells are multiples of 50 in `[-500, 1500]`,
`adjust_terrain` sends negative cells to band 0, cells in `[50, 200]` to
band 1, cells in `[250, 300]` to band 2, cells in `[350, 400]` to band 3,
and the only unmatched value (elevation 0) is left unchanged. -/
theorem claim1 (g : Grid)
    (hg : ∀ row ∈ g, ∀ v ∈ row, (50 : ℤ) ∣ v ∧ -500 ≤ v ∧ v ≤ 1500)
    (i j : ℕ) (v : ℤ) (hv : getCell g i j = some v) :
    (v < 0 → getCell (adjust_terrain g) i j = some 0) ∧
    (50 ≤ v ∧ v ≤ 200 → getCell (adjust_terrain g) i j = some 1) ∧
    (250 ≤ v ∧ v ≤ 300 → getCell (adjust_terrain g) i j = some 2) ∧
    (350 ≤ v ∧ v ≤ 400 → getCell (adjust_terrain g) i j = some 3) ∧
    (v = 0 → getCell (adjust_terrain g) i j = some v) := by
  obtain ⟨row, hrow, hvrow⟩ := mem_of_getCell hv
  obtain ⟨hd, hl, hu⟩ := hg row hrow v hvrow
  have hcell : getCell (adjust_terrain g) i j = some (adjustCell v) := by
    rw [adjust_terrain_eq_gridMap, getCell_gridMap, hv]; rfl
  obtain ⟨f1, f2, f3, f4, f5⟩ := adjustCell_facts v (mem_elevValues hd hl hu)
  exact ⟨fun h => by rw [hcell, f1 h],
         fun h => by rw [hcell, f2 h],
         fun h => by rw [hcell, f3 h],
         fun h => by rw [hcell, f4 h],
         fun h => by rw [hcell, f5 h]⟩

/-- Witness for C1 at the grid `[[-50, 0, 50, 250, 350]]`: the cell with
elevation -50 is mapped to band 0. -/
theorem claim1_witness :
    getCell (adjust_terrain [[(-50 : ℤ), 0, 50, 250, 350]]) 0 0 = some 0 :=
  (claim1 [[(-50 : ℤ), 0, 50, 250, 350]] (by decide) 0 0 (-50) (by decide)).1 (by decide)

/-- Claim C2: the high-elevation bands start at `adjustCell 450 = 4` and the
gap between the bands of consecutive 50-meter steps is `4 + 5k` at the k-th
step, so the band identifiers are strictly increasing (in particular
`band 500 = band 450 + 4` and `band 550 = band 500 + 9`). -/
theorem claim2 : adjustCell 450 = 4 ∧
    ∀ k : ℕ, k < 21 →
      adjustCell (450 + 50 * ((k : ℤ) + 1))
          = adjustCell (450 + 50 * (k : ℤ)) + (4 + 5 * (k : ℤ)) ∧
      adjustCell (450 + 50 * (k : ℤ)) < adjustCell (450 + 50 * ((k : ℤ) + 1)) := by
  constructor
  · decide
  · decide

/-- Witness for C2 at the first step: `band 500 = band 450 + 4`. -/
theorem claim2_witness :
    adjustCell (450 + 50 * (((0 : ℕ) : ℤ) + 1))
      = adjustCell (450 + 50 * ((0 : ℕ) : ℤ)) + (4 + 5 * ((0 : ℕ) : ℤ)) :=
  (claim2.2 0 (by decide)).1

/-- Counterexample to claim C4 as stated: the elevation 25 is exactly halfway
between 0 and 50, and the quantization of `generate_terrain` sends it to 0
(the even multiple of 50), not to 50 (the multiple farther from zero) as the
claim asserts. -/
theorem claim4_counterexample : quantize 25 = 0 ∧ quantize 25 ≠ 50 := by
  have h : quantize 25 = 0 := by
    unfold quantize pyRound
    rw [ratFloor_eq_intFloor]
    norm_num
  exact ⟨h, by rw [h]; decide⟩

/-- Claim C4, amended: the quantization step of `generate_terrain` uses
Python's `round`, which rounds halves to the nearest even value; an elevation
exactly halfway between the consecutive multiples `50k` and `50(k+1)` is sent
to whichever of the two has an even multiplier (ties to even, not ties away
from zero). -/
theorem claim4 (k : ℤ) :
    quantize ((25 : ℚ) + 50 * k) = 50 * (if k % 2 = 0 then k else k + 1) := by
  have hdiv : ((25 : ℚ) + 50 * k) / 50 = (k : ℚ) + 1/2 := by
    field_simp
    ring
  unfold quantize pyRound
  rw [hdiv, ratFloor_eq_intFloor]
  have hfl : ⌊(k : ℚ) + 1/2⌋ = k := by
    rw [add_comm, Int.floor_add_int]
    norm_num
  rw [hfl]
  have hfrac : (k : ℚ) + 1/2 - (k : ℤ) = 1/2 := by ring
  rw [hfrac]
  simp only [lt_self_iff_false, if_false]
  split_ifs <;> ring

theorem adjustCell_mono_mem : ∀ a ∈ elevValues, ∀ b ∈ elevValues,
    a ≠ 0 → b ≠ 0 → a < b → adjustCell a ≤ adjustCell b := by decide

/-- Claim C5: `adjust_terrain`'s per-cell band assignment is monotone on the
mapped multiples of 50 in `[-500, 1500]` (every such value except the gap
value 0): a lower elevation never gets a larger band identifier. -/
theorem claim5 (a b : ℤ) (hda : (50 : ℤ) ∣ a) (hdb : (50 : ℤ) ∣ b)
    (hla : -500 ≤ a) (hua : a ≤ 1500) (hlb : -500 ≤ b) (hub : b ≤ 1500)
    (hma : a ≠ 0) (hmb : b ≠ 0) (hab : a < b) :
    adjustCell a ≤ adjustCell b :=
  adjustCell_mono_mem a (mem_elevValues hda hla hua)
    b (mem_elevValues hdb hlb hub) hma hmb hab

/-- Witness for C5 at the pair `(50, 100)`. -/
theorem claim5_witness : adjustCell 50 ≤ adjustCell 100 :=
  claim5 50 100 ⟨1, by norm_num⟩ ⟨2, by norm_num⟩ (by norm_num) (by norm_num)
    (by norm_num) (by norm_num) (by norm_num) (by norm_num) (by norm_num)

/-- Claim C10: on grids whose cells are multiples of 50 in `[-500, 1500]`,
the sequence of in-place masked rewrites of `adjust_terrain` (performed on a
copy, so the input grid itself is returned unchanged by the embedding) is
alias-free: the resulting grid equals the cell-wise application of the pure
first-match band function `specBand` of each cell's original elevation. -/
theorem claim10 (g : Grid)
    (hg : ∀ row ∈ g, ∀ v ∈ row, (50 : ℤ) ∣ v ∧ -500 ≤ v ∧ v ≤ 1500) :
    adjust_terrain g = gridMap specBand g := by
  rw [adjust_terrain_eq_gridMap]
  unfold gridMap
  refine List.map_congr_left ?_
  intro row hrow
  refine List.map_congr_left ?_
  intro v hv
  obtain ⟨hd, hl, hu⟩ := hg row hrow v hv
  exact adjustCell_eq_specBand_of_mem v (mem_elevValues hd hl hu)

theorem pyRound_bounds {x : ℚ} {a b : ℤ} (ha : (a : ℚ) ≤ x) (hb : x ≤ (b : ℚ)) :
    a ≤ pyRound x ∧ pyRound x ≤ b := by
  have hfl : a ≤ ⌊x⌋ := Int.le_floor.mpr ha
  have hfu : ⌊x⌋ ≤ b := by
    have h := Int.floor_le_floor hb
    simpa using h
  have hlow : (⌊x⌋ : ℚ) ≤ x := Int.floor_le x
  unfold pyRound
  rw [ratFloor_eq_intFloor]
  split_ifs with h1 h2 h3
  · exact ⟨hfl, hfu⟩
  · refine ⟨by omega, ?_⟩
    have hq : (⌊x⌋ : ℚ) + 1 < (b : ℚ) + 1 := by linarith
    have hz : ⌊x⌋ + 1 < b + 1 := by exact_mod_cast hq
    omega
  · exact ⟨hfl, hfu⟩
  · refine ⟨by omega, ?_⟩
    have hx : x - ⌊x⌋ = 1/2 := le_antisymm (not_lt.mp h2) (not_lt.mp h1)
    have hq : (⌊x⌋ : ℚ) + 1 < (b : ℚ) + 1 := by linarith
    have hz : ⌊x⌋ + 1 < b + 1 := by exact_mod_cast hq
    omega

theorem interp01_bounds (x : ℚ) : -500 ≤ interp01 x ∧ interp01 x ≤ 1500 := by
  unfold interp01
  split_ifs with h1 h2
  · constructor <;> norm_num
  · constructor <;> norm_num
  · push_neg at h1 h2
    constructor <;> nlinarith

theorem genCell_spec (sn : ℚ → ℚ → ℚ) (sx sy scl : ℚ) (i j : ℕ) :
    (50 : ℤ) ∣ genCell sn sx sy scl i j ∧
      -500 ≤ genCell sn sx sy scl i j ∧ genCell sn sx sy scl i j ≤ 1500 := by
  unfold genCell quantize
  dsimp only
  obtain ⟨hl, hu⟩ := interp01_bounds ((sn (((i : ℚ) + sx) / (scl * (4/5)))
    (((j : ℚ) + sy) / (scl * (4/5))) + 1) / 2)
  set e := interp01 ((sn (((i : ℚ) + sx) / (scl * (4/5)))
    (((j : ℚ) + sy) / (scl * (4/5))) + 1) / 2) with he
  have h1 : ((-10 : ℤ) : ℚ) ≤ e / 50 := by
    rw [le_div_iff₀ (by norm_num : (0 : ℚ) < 50)]
    push_cast
    linarith
  have h2 : e / 50 ≤ ((30 : ℤ) : ℚ) := by
    rw [div_le_iff₀ (by norm_num : (0 : ℚ) < 50)]
    push_cast
    linarith
  obtain ⟨hr1, hr2⟩ := pyRound_bounds h1 h2
  exact ⟨⟨pyRound (e / 50), mul_comm _ _⟩, by omega, by omega⟩

/-- Claim C3: every cell of the grid returned by `generate_terrain`, for any
dimensions, scale, noise collaborator and random offsets, is an integer
multiple of 50 in `[-500, 1500]`. -/
theorem claim3 (sn : ℚ → ℚ → ℚ) (sx sy : ℚ) (w h : ℕ) (scl : ℚ) (i j : ℕ) (v : ℤ)
    (hv : getCell (generate_terrain sn sx sy w h scl) i j = some v) :
    (50 : ℤ) ∣ v ∧ -500 ≤ v ∧ v ≤ 1500 := by
  obtain ⟨row, hrow, hvrow⟩ := mem_of_getCell hv
  simp only [generate_terrain, List.mem_map, List.mem_range] at hrow
  obtain ⟨i0, hi0, rfl⟩ := hrow
  simp only [List.mem_map, List.mem_range] at hvrow
  obtain ⟨j0, hj0, rfl⟩ := hvrow
  exact genCell_spec sn sx sy scl i0 j0

/-- Witness for C3: a 1-by-1 grid with the zero noise collaborator produces
cell value 500, a multiple of 50 in range. -/
theorem claim3_witness : (50 : ℤ) ∣ 500 ∧ (-500 : ℤ) ≤ 500 ∧ (500 : ℤ) ≤ 1500 :=
  claim3 (fun _ _ => 0) 0 0 1 1 100 0 0 500 (by
    simp only [generate_terrain, getCell, genCell, interp01, quantize, pyRound,
      ratFloor_eq_intFloor, List.range_succ, List.range_zero]
    norm_num)

theorem processNeighbors_forest_inv (terrain : ℤ → ℤ → ℤ) (w h : ℕ)
    (stream : ℕ → ℚ) (L : List (ℤ × ℤ)) :
    ∀ (q f : List (ℤ × ℤ)) (pos : ℕ),
      (∀ c ∈ f, terrain c.1 c.2 = 1 ∨ terrain c.1 c.2 = 2) →
      ∀ c ∈ (processNeighbors terrain w h stream L q f pos).2.1,
        terrain c.1 c.2 = 1 ∨ terrain c.1 c.2 = 2 := by
  induction L with
  | nil =>
      intro q f pos hf
      simpa [processNeighbors] using hf
  | cons c0 rest ih =>
      intro q f pos hf
      simp only [processNeighbors]
      split_ifs with h1 h2 hp h3 h4 <;>
      first
        | (refine ih _ _ _ ?_
           intro c hc
           rcases List.mem_cons.mp hc with rfl | hcf
           · exact h2
           · exact hf c hcf)
        | exact ih _ _ _ hf

theorem propagateQueue_forest_inv (terrain : ℤ → ℤ → ℤ) (w h : ℕ)
    (stream : ℕ → ℚ) :
    ∀ (fuel : ℕ) (q f : List (ℤ × ℤ)) (pos : ℕ),
      (∀ c ∈ f, terrain c.1 c.2 = 1 ∨ terrain c.1 c.2 = 2) →
      ∀ c ∈ (propagateQueue terrain w h stream fuel q f pos).1,
        terrain c.1 c.2 = 1 ∨ terrain c.1 c.2 = 2 := by
  intro fuel
  induction fuel with
  | zero =>
      intro q f pos hf
      simpa [propagateQueue] using hf
  | succ n ih =>
      intro q f pos hf
      cases q with
      | nil => simpa [propagateQueue] using hf
      | cons c rest =>
          simp only [propagateQueue]
          exact ih _ _ _ (processNeighbors_forest_inv terrain w h stream _ rest f pos hf)

theorem add_forestsAux_forest_inv (terrain : ℤ → ℤ → ℤ) (w h desired : ℕ)
    (spawnP : ℚ) (stream : ℕ → ℚ) (pfuel : ℕ) :
    ∀ (afuel count : ℕ) (f : List (ℤ × ℤ)) (pos : ℕ),
      (∀ c ∈ f, terrain c.1 c.2 = 1 ∨ terrain c.1 c.2 = 2) →
      ∀ fm, add_forestsAux terrain w h desired spawnP stream pfuel afuel count f pos
          = some fm →
      ∀ c ∈ fm, terrain c.1 c.2 = 1 ∨ terrain c.1 c.2 = 2 := by
  intro afuel
  induction afuel with
  | zero =>
      intro count f pos hf fm hres
      simp only [add_forestsAux] at hres
      split_ifs at hres
      obtain rfl := Option.some.inj hres
      exact hf
  | succ n ih =>
      intro count f pos hf fm hres
      simp only [add_forestsAux] at hres
      split_ifs at hres with hd helig hsp
      · obtain rfl := Option.some.inj hres
        exact hf
      · refine ih _ _ _ ?_ fm hres
        unfold propagate_forest
        refine propagateQueue_forest_inv terrain w h stream pfuel _ _ _ ?_
        intro c hc
        rcases List.mem_cons.mp hc with rfl | hc
        · exact helig.1
        · exact hf c hc
      · exact ih _ _ _ hf fm hres
      · exact ih _ _ _ hf fm hres

/-- Claim C6: whenever the retry loop of `add_forests` returns a forest map,
every forested cell has band 1 or band 2 in the input band grid, for every
band grid, requested count, random outcome and fuel. -/
theorem claim6 (terrain : ℤ → ℤ → ℤ) (w h desired : ℕ) (spawnP : ℚ)
    (stream : ℕ → ℚ) (pfuel afuel : ℕ) (fm : List (ℤ × ℤ))
    (hres : add_forests terrain w h desired spawnP stream pfuel afuel = some fm) :
    ∀ c ∈ fm, terrain c.1 c.2 = 1 ∨ terrain c.1 c.2 = 2 :=
  add_forestsAux_forest_inv terrain w h desired spawnP stream pfuel afuel 0 [] 0
    (by simp) fm hres

/-- Witness for C6: a 1-by-1 all-band-1 grid with one requested patch
produces the forest map `[(0, 0)]`, whose only cell has band 1. -/
theorem claim6_witness : (1 : ℤ) = 1 ∨ (1 : ℤ) = 2 :=
  claim6 (fun _ _ => 1) 1 1 1 (1/10) (fun _ => 0) 2 2 [((0 : ℤ), (0 : ℤ))]
    (by norm_num [add_forests, add_forestsAux, propagate_forest, propagateQueue,
      processNeighbors, adjacent_cells, in_bounds, ratFloor_eq_intFloor])
    ((0 : ℤ), (0 : ℤ)) (by simp)

/-- Claim C7 evaluation at the failing input: on a 1-by-4 row of band-1
cells, with every random draw equal to 0.95, the flood fill from seed (0, 0)
forests the whole row.  The acceptance threshold the code applies to a band-1
neighbor is 1.0 at every distance from the seed (the source's `prob *= 0.9`
is dead, overwritten before the next read), so the cell (3, 0), three steps
out, is accepted although 0.95 exceeds the claimed decayed threshold
1.0 * 0.9 * 0.9 = 0.81. -/
theorem claim7 :
    propagate_forest (fun _ _ => (1 : ℤ)) 4 1 (fun _ => 19/20) 10 (0, 0) [] 0
      = ([(3, 0), (2, 0), (1, 0), (0, 0)], 3) := by
  norm_num [propagate_forest, propagateQueue, processNeighbors, adjacent_cells,
    in_bounds]

/-- Claim C8: when no in-bounds cell of the band grid has band 1 or 2, the
retry loop of `add_forests` never reaches the requested count for any
outcome of the random draws: the fuel-bounded embedding returns `none` for
every fuel. -/
theorem claim8 (terrain : ℤ → ℤ → ℤ) (w h desired : ℕ) (spawnP : ℚ)
    (stream : ℕ → ℚ)
    (hs : ∀ n, 0 ≤ stream n ∧ stream n < 1) (hw : 0 < w) (hh : 0 < h)
    (hd : 1 ≤ desired)
    (hno : ∀ x y : ℤ, 0 ≤ x → x < (w : ℤ) → 0 ≤ y → y < (h : ℤ) →
      ¬(terrain x y = 1 ∨ terrain x y = 2))
    (pfuel afuel : ℕ) :
    add_forests terrain w h desired spawnP stream pfuel afuel = none := by
  suffices haux : ∀ (af : ℕ) (pos : ℕ),
      add_forestsAux terrain w h desired spawnP stream pfuel af 0 [] pos = none from
    haux afuel 0
  intro af
  induction af with
  | zero =>
      intro pos
      simp only [add_forestsAux]
      rw [if_neg (by omega : ¬ desired ≤ 0)]
  | succ n ih =>
      intro pos
      simp only [add_forestsAux]
      rw [if_neg (by omega : ¬ desired ≤ 0)]
      have hxl : (0 : ℤ) ≤ (stream pos * (w : ℚ)).floor := by
        rw [ratFloor_eq_intFloor]
        exact Int.floor_nonneg.mpr (mul_nonneg (hs pos).1 (by positivity))
      have hxu : (stream pos * (w : ℚ)).floor < (w : ℤ) := by
        rw [ratFloor_eq_intFloor]
        refine Int.floor_lt.mpr ?_
        push_cast
        exact mul_lt_of_lt_one_left (by exact_mod_cast hw) (hs pos).2
      have hyl : (0 : ℤ) ≤ (stream (pos + 1) * (h : ℚ)).floor := by
        rw [ratFloor_eq_intFloor]
        exact Int.floor_nonneg.mpr (mul_nonneg (hs (pos + 1)).1 (by positivity))
      have hyu : (stream (pos + 1) * (h : ℚ)).floor < (h : ℤ) := by
        rw [ratFloor_eq_intFloor]
        refine Int.floor_lt.mpr ?_
        push_cast
        exact mul_lt_of_lt_one_left (by exact_mod_cast hh) (hs (pos + 1)).2
      rw [if_neg (fun hc => hno _ _ hxl hxu hyl hyu hc.1)]
      exact ih (pos + 2)

/-- Witness for C8: a 1-by-1 all-band-0 grid and one requested patch give
`none` for fuel 1. -/
theorem claim8_witness :
    add_forests (fun _ _ => (0 : ℤ)) 1 1 1 (1/10) (fun _ => 0) 1 1 = none :=
  claim8 (fun _ _ => 0) 1 1 1 (1/10) (fun _ => 0)
    (fun _ => ⟨le_refl 0, by norm_num⟩) (by norm_num) (by norm_num) (le_refl 1)
    (fun _ _ _ _ _ _ => by simp) 1 1

/-- Claim C9: the color mapper is deterministic and reads no randomness: the
color grid produced by `terrain_to_color_map` is the same for any two random
oracles and cursors, and the cursor comes back unchanged (no random call is
made by `get_color` or `terrain_to_color_map`). -/
theorem claim9 (t : Grid) (fm : List (ℤ × ℤ)) (s1 s2 : ℕ → ℚ) (p1 p2 : ℕ) :
    (terrain_to_color_map t fm s1 p1).1 = (terrain_to_color_map t fm s2 p2).1 ∧
      (terrain_to_color_map t fm s1 p1).2 = p1 :=
  ⟨rfl, rfl⟩

/-- Witness for C10 at the grid `[[-50, 0, 650]]` (650 is the elevation whose
band identifier, 50, is itself a multiple of 50, the closest candidate for an
aliasing collision). -/
theorem claim10_witness :
    adjust_terrain [[(-50 : ℤ), 0, 650]] = gridMap specBand [[(-50 : ℤ), 0, 650]] :=
  claim10 [[(-50 : ℤ), 0, 650]] (by decide)

end Maps
